import Mathlib

/-!
Shallow embedding of the nanobot repository's MiniMax OAuth client
(`src/nanobot/oauth/minimax.py`) and Feishu channel
(`src/nanobot/channels/feishu.py`), with theorems settling the frozen
claims about them.

Conventions of the embedding:
* wall-clock instants and durations are rationals (`ℚ`);
* network effects are passed in as oracle functions returning `Option`
  (`none` models a raised exception / failed call);
* each function that performs network calls also returns the list of
  calls it issued, in order, so that claims about "zero network calls"
  or "at most one refresh" are statements about that trace;
* file-system state (the single token file) is an `Option StoredToken`
  threaded explicitly.
-/

/-! ## PKCE generation (`generate_pkce`, lines 31-35)

`os.urandom(...).hex()` draws are modelled by an random stream
`rnd : ℕ → String` consumed left to right via a counter, and
`hashlib.sha256(..).hexdigest()` by an abstract digest function
`sha : String → String` (the spec treats the hash as an opaque
cryptographic service). -/

structure PkceTriple where
  verifier : String
  challenge : String
  pkceState : String
deriving DecidableEq

/-- `generate_pkce()` (minimax.py lines 31-35): one urandom draw for the
verifier, its digest as challenge, a second draw for the state; returns
the triple together with the advanced position in the random stream. -/
def generate_pkce (sha : String → String) (rnd : ℕ → String) (ctr : ℕ) :
    PkceTriple × ℕ :=
  (⟨rnd ctr, sha (rnd ctr), rnd (ctr + 1)⟩, ctr + 2)

/-- The form fields of interest POSTed by `request_oauth_code`
(minimax.py lines 42-61): the code_challenge and state.  The verifier
generated inside the function is NOT part of the return value, exactly
as in the source. -/
structure InitiateSent where
  code_challenge : String
  sentState : String
deriving DecidableEq

/-- `request_oauth_code` (minimax.py lines 42-61), restricted to the PKCE
data flow: it calls `generate_pkce`, POSTs the challenge and state, and
returns (the server response is irrelevant here) without exposing the
verifier. -/
def request_oauth_code_pkce (sha : String → String) (rnd : ℕ → String)
    (ctr : ℕ) : InitiateSent × ℕ :=
  let (p, ctr') := generate_pkce sha rnd ctr
  (⟨p.challenge, p.pkceState⟩, ctr')

/-- The PKCE data flow of one `login_minimax` attempt (minimax.py lines
81-94): first `request_oauth_code` (line 84) consumes one
`generate_pkce` call, then line 88 `verifier = generate_pkce()[0]` draws
a FRESH verifier, and that fresh verifier is what every
`poll_oauth_token` call in the loop POSTs as `code_verifier` (line 94).
Returns (challenge sent in the initiate request, verifier POSTed in the
poll loop). -/
def login_minimax_pkce_flow (sha : String → String) (rnd : ℕ → String) :
    String × String :=
  let (sent, ctr₁) := request_oauth_code_pkce sha rnd 0
  let (p₂, _) := generate_pkce sha rnd ctr₁
  (sent.code_challenge, p₂.verifier)

/-! ## Poll loop of `login_minimax` (minimax.py lines 89-108) -/

/-- JSON body of one `poll_oauth_token` response; `status` and `message`
are read with `.get` in the source, a missing `message` is `none`. -/
structure PollResp where
  status : String
  access_token : String
  refresh_token : String
  expired_in : ℚ
  message : Option String
deriving DecidableEq

def dummyResp : PollResp := ⟨"", "", "", 0, none⟩

/-- The dict returned by a successful `login_minimax` (lines 98-103). -/
structure LoginOk where
  access : String
  refresh : String
  expires : ℚ
  region : String
deriving DecidableEq

/-- How `login_minimax` fails: a provider-reported error carrying the
response's `message` field (line 105), or the timeout after the polling
window (line 108). -/
inductive LoginErr where
  | provider (msg : Option String)
  | timeout
deriving DecidableEq

/-- Backoff update, line 106: `poll_interval = min(poll_interval * 1.5, 10)`. -/
def nextInterval (i : ℚ) : ℚ := min (i * (3 / 2)) 10

/-- The `while time.time() < expire_time` loop of `login_minimax`
(lines 92-108).  `resps` is the (finite) schedule of poll responses the
server will give; each iteration sleeps `interval` (advancing `now`) and
consumes one response.  Returns the list of sleep durations performed
and the outcome: `none` means the schedule ran out with the loop still
going, `some` is the loop's actual result. -/
def poll_loop (region : String) (expire_time : ℚ) :
    ℚ → ℚ → List PollResp → List ℚ × Option (Except LoginErr LoginOk)
  | now, _, [] => if expire_time ≤ now then ([], some (.error .timeout)) else ([], none)
  | now, interval, r :: rest =>
      if expire_time ≤ now then ([], some (.error .timeout))
      else if r.status = "success" then
        ([interval], some (.ok ⟨r.access_token, r.refresh_token, r.expired_in, region⟩))
      else if r.status = "error" then
        ([interval], some (.error (.provider r.message)))
      else
        let (s, o) := poll_loop region expire_time (now + interval) (nextInterval interval) rest
        (interval :: s, o)

/-- `login_minimax`'s loop with its actual deadline
`expire_time = start + expires_in` (line 89) and initial interval from
the initiate response (line 90). -/
def login_minimax_poll (region : String) (start expires_in interval : ℚ)
    (resps : List PollResp) : List ℚ × Option (Except LoginErr LoginOk) :=
  poll_loop region (start + expires_in) start interval resps

/-! ## Token store and `get_minimax_access_token` (minimax.py lines 129-162) -/

/-- Contents of the persisted token file `~/.nanobot/.minimax_token`:
`{access, refresh, expires, region}`, the `region` key possibly absent
(the source reads it with `token_data.get("region", "cn")`). -/
structure StoredToken where
  access : String
  refresh : String
  expires : ℚ
  region : Option String
deriving DecidableEq

/-- `MiniMaxOAuthToken` (minimax.py lines 129-137): constructed from the
stored fields, with `expires_at = time.time() + expires` (line 134);
`now` is the construction instant. -/
structure MiniMaxOAuthToken where
  access : String
  refresh : String
  expires : ℚ
  expires_at : ℚ
deriving DecidableEq

def MiniMaxOAuthToken.ofData (access refresh : String) (expires now : ℚ) :
    MiniMaxOAuthToken :=
  ⟨access, refresh, expires, now + expires⟩

/-- `is_expired` (line 136-137): `time.time() >= (self.expires_at - 60)`. -/
def MiniMaxOAuthToken.is_expired (t : MiniMaxOAuthToken) (now : ℚ) : Bool :=
  t.expires_at - 60 ≤ now

/-- JSON body of a successful `refresh_access_token` response. -/
structure RefreshResp where
  access_token : String
  refresh_token : String
  expired_in : ℚ
deriving DecidableEq

/-- Network calls `get_minimax_access_token` can issue:
`refreshCall tok region` is one `refresh_access_token(tok, region)`
(line 149); `loginCall region` is one full device-flow
`login_minimax(region)` (line 159). -/
inductive OAuthCall where
  | refreshCall (refresh_token : String) (region : String)
  | loginCall (region : String)
deriving DecidableEq

/-- Result of one `get_minimax_access_token` call: the network calls it
issued in order, the token file contents afterwards, and either the
returned access string or a raised error. -/
structure GetTokenResult where
  calls : List OAuthCall
  store : Option StoredToken
  outcome : Except String String

/-- Lines 159-162: `token_data = await login_minimax()` — note the region
argument is OMITTED in the source, so the default `"cn"` is used, and
the dict `login_minimax` returns carries `"region": region` with that
same argument (line 102); it is then written to the token file.
`loginNet region = some (access, refresh, expires)` models a successful
flow, `none` a raised exception (which propagates, leaving the file
unchanged). -/
def login_and_store (pre : List OAuthCall) (store : Option StoredToken)
    (loginNet : String → Option (String × String × ℚ)) : GetTokenResult :=
  match loginNet "cn" with
  | some (a, r, e) =>
      ⟨pre ++ [.loginCall "cn"], some ⟨a, r, e, some "cn"⟩, .ok a⟩
  | none => ⟨pre ++ [.loginCall "cn"], store, .error "login failed"⟩

/-- `get_minimax_access_token(force_refresh)` (minimax.py lines 140-162).
`store` is the token file (`none` = file absent), `now` the current
time; `refreshNet tok region` models `refresh_access_token` (`none` = it
raised), `loginNet` models `login_minimax` as in `login_and_store`. -/
def get_minimax_access_token (force_refresh : Bool)
    (store : Option StoredToken) (now : ℚ)
    (refreshNet : String → String → Option RefreshResp)
    (loginNet : String → Option (String × String × ℚ)) : GetTokenResult :=
  match store, force_refresh with
  | some td, false =>
      let token := MiniMaxOAuthToken.ofData td.access td.refresh td.expires now
      if ¬ token.is_expired now then
        ⟨[], some td, .ok token.access⟩
      else
        let region := td.region.getD "cn"
        match refreshNet td.refresh region with
        | some r =>
            let td' : StoredToken :=
              { td with access := r.access_token, refresh := r.refresh_token,
                        expires := r.expired_in }
            ⟨[.refreshCall td.refresh region], some td', .ok td'.access⟩
        | none => login_and_store [.refreshCall td.refresh region] store loginNet
  | _, _ => login_and_store [] store loginNet

/-! ## Feishu inbound decoding (`do_p2_im_message_receive_v1`, feishu.py lines 176-249)

String manipulation is modelled on `List Char` (the logical model of
`String`), with Python's `str.replace`, `in`, `strip`, `lower` and
`split` semantics spelled out so every theorem can be evaluated by the
kernel. -/

/-- The characters of the bot-broadcast mention `"@_all"`. -/
def mentionChars : List Char := ['@', '_', 'a', 'l', 'l']

/-- Python `text.replace("@_all", "")`: remove every non-overlapping
occurrence of `@_all`, scanning left to right (first-match patterns make
this structurally recursive). -/
def removeMention : List Char → List Char
  | [] => []
  | '@' :: '_' :: 'a' :: 'l' :: 'l' :: rest => removeMention rest
  | c :: cs => c :: removeMention cs

/-- Python `"@_all" in text`. -/
def containsMention : List Char → Bool
  | [] => false
  | c :: cs => mentionChars.isPrefixOf (c :: cs) || containsMention cs

/-- Python `str.strip()`: drop whitespace from both ends. -/
def stripChars (l : List Char) : List Char :=
  ((l.dropWhile Char.isWhitespace).reverse.dropWhile Char.isWhitespace).reverse

/-- feishu.py lines 221-222: `if "@_all" in text: text =
text.replace("@_all", "").strip()`. -/
def strip_mention (t : String) : String :=
  if containsMention t.data then ⟨stripChars (removeMention t.data)⟩ else t

/-- The decoded JSON content payload of an inbound event; each field is
read with `.get`, so absent keys are `none`. -/
structure FeishuContentJson where
  text : Option String
  image_key : Option String
  file_key : Option String
  file_name : Option String
deriving DecidableEq

/-- feishu.py lines 189-207: pick `(file_key, file_name, resource_type)`
from the message-type tag. -/
def classify_media (msg_type : String) (c : FeishuContentJson) :
    Option String × Option String × Option String :=
  if msg_type = "image" then (c.image_key, none, some "image")
  else if msg_type = "file" then (c.file_key, c.file_name, some "file")
  else if msg_type = "media" then (c.file_key, c.file_name, some "media")
  else if msg_type = "audio" then (c.file_key, none, some "file")
  else (none, none, none)

/-- Python truthiness of an optional string: `None` and `""` are falsy. -/
def truthyStr : Option String → Option String
  | some s => if s = "" then none else some s
  | none => none

/-- Python `file_name or "file"` (feishu.py line 214). -/
def orFile : Option String → String
  | some s => if s = "" then "file" else s
  | none => "file"

/-- The event callback `do_p2_im_message_receive_v1` (feishu.py lines
176-249) restricted to its pure decoding part: from the message type
tag, the raw content string and its JSON decoding (`none` models a
`json.loads` failure, which the `except` branch turns into
`text = content_str`), produce the `content` and `media` of the
`InboundMessage` eventually handed to the bus.  `download` models
`_download_file` (feishu.py lines 27-69), which returns `None` on any
failure. -/
def decode_feishu_event
    (download : String → String → String → Option String → Option String)
    (message_id : String) (msg_type : String) (content_str : String)
    (decoded : Option FeishuContentJson) : String × List String :=
  let tm : String × List String :=
    match decoded with
    | none => (content_str, [])
    | some c =>
      let text := c.text.getD ""
      let (fk, fn, rt) := classify_media msg_type c
      match truthyStr fk, rt with
      | some k, some r =>
        match download message_id k r fn with
        | some path =>
            (if text = "" then "[" ++ msg_type ++ "] " ++ orFile fn else text, [path])
        | none => (text, [])
      | _, _ => (text, [])
  (strip_mention tm.1, tm.2)

/-! ## Feishu outbound sending (`FeishuChannel.send`, feishu.py lines 290-376) -/

/-- Python `path.split('.')` once the path is known to contain `'.'`. -/
def splitDot : List Char → List (List Char)
  | [] => [[]]
  | c :: cs =>
    if c = '.' then [] :: splitDot cs
    else
      match splitDot cs with
      | [] => [[c]]
      | h :: t => (c :: h) :: t

/-- feishu.py line 336: `ext = file_path.lower().split('.')[-1] if '.' in
file_path else ""`. -/
def media_ext (p : String) : String :=
  if p.data.contains '.' then ⟨(splitDot (p.data.map Char.toLower)).getLastD []⟩
  else ""

/-- feishu.py line 337: `msg_type = "image" if ext in ["jpg", "jpeg",
"png", "gif"] else "file"`. -/
def media_msg_type (p : String) : String :=
  if ["jpg", "jpeg", "png", "gif"].contains (media_ext p) then "image" else "file"

/-- Structured stand-in for the `json.dumps` content of a message-create
request body. -/
inductive ContentPayload where
  | textContent (s : String)
  | imageKeyContent (k : String)
  | fileKeyContent (k : String)
deriving DecidableEq

/-- Vendor API calls the send path can issue: `msgCreate` is one
`im.v1.message.create`, `imageUpload` one `im.v1.image.create`
(`_upload_image`), `fileUpload` one `im.v1.file.create`
(`_upload_file`). -/
inductive FeishuCall where
  | msgCreate (receive_id : String) (msg_type : String) (content : ContentPayload)
  | imageUpload (path : String)
  | fileUpload (path : String)
deriving DecidableEq

/-- Bus-level outbound message (`OutboundMessage`): `content = ""` models
an absent text, matching Python's `if msg.content:` truthiness. -/
structure OutboundMessage where
  chat_id : String
  content : String
  media : List String
deriving DecidableEq

/-- Loop body of the media for-loop (feishu.py lines 333-376) for one
`file_path`: classify by extension, upload (the oracle returning `none`
models both upload failure and a raised exception, logged and skipped
via `continue`), and on success issue one message-create call. -/
def send_media_item (upImg upFile : String → Option String)
    (receive_id p : String) : List FeishuCall :=
  if media_msg_type p = "image" then
    match upImg p with
    | some k => [.imageUpload p, .msgCreate receive_id "image" (.imageKeyContent k)]
    | none => [.imageUpload p]
  else
    match upFile p with
    | some k => [.fileUpload p, .msgCreate receive_id "file" (.fileKeyContent k)]
    | none => [.fileUpload p]

/-- The `for file_path in msg.media:` loop (feishu.py line 333),
processing items strictly one after the other. -/
def send_media_loop (upImg upFile : String → Option String)
    (receive_id : String) : List String → List FeishuCall
  | [] => []
  | p :: rest =>
      send_media_item upImg upFile receive_id p
        ++ send_media_loop upImg upFile receive_id rest

/-- `FeishuChannel.send` (feishu.py lines 290-376) as the trace of vendor
calls it issues, in order.  `apiReady` models `self._api_client` being
initialized (line 292); a failed text send is caught and logged (lines
321-329), so it contributes its call to the trace but never affects
control flow. -/
def FeishuChannel.send (apiReady : Bool) (upImg upFile : String → Option String)
    (msg : OutboundMessage) : List FeishuCall :=
  if ¬ apiReady then []
  else
    (if msg.content ≠ "" then
        [.msgCreate msg.chat_id "text" (.textContent msg.content)]
      else [])
    ++ (if msg.media ≠ [] then send_media_loop upImg upFile msg.chat_id msg.media
        else [])

/-- The provider-side key obtained for a media path, if its upload
succeeds: image uploads for image extensions, file uploads otherwise. -/
def upload_result (upImg upFile : String → Option String) (p : String) :
    Option String :=
  if media_msg_type p = "image" then upImg p else upFile p

/-- Whether a vendor call is a message-create call. -/
def isCreate : FeishuCall → Bool
  | .msgCreate _ _ _ => true
  | _ => false

/-- The message-create call delivered for media path `p` with uploaded
key `k`. -/
def mkMediaCreate (receive_id p k : String) : FeishuCall :=
  if media_msg_type p = "image" then .msgCreate receive_id "image" (.imageKeyContent k)
  else .msgCreate receive_id "file" (.fileKeyContent k)

/-! ## Auxiliary notions for stating the poll-loop claims -/

/-- A poll response that keeps the loop going: any `status` other than
`"success"` and `"error"`. -/
def isPending (r : PollResp) : Bool :=
  ¬ r.status = "success" ∧ ¬ r.status = "error"

/-- The first `k` scheduled responses all keep the loop going. -/
def pendingBefore (resps : List PollResp) (k : ℕ) : Prop :=
  ∀ j, j < k → isPending (resps.getD j dummyResp) = true

/-- The wall-clock instant at which the loop performs its `k`-th deadline
check, starting from instant `now` with current interval `i`: each
iteration sleeps the current interval and then applies the backoff
update. -/
def timeAt : ℚ → ℚ → ℕ → ℚ
  | now, _, 0 => now
  | now, i, Nat.succ k => timeAt (now + i) (nextInterval i) k

/-! ## Theorems -/

/-- C1: the spec requires the verifier POSTed while polling to be the
verifier whose digest was sent as `code_challenge`, but the source draws
a FRESH verifier in `login_minimax` (line 88) after `request_oauth_code`
already generated (and discarded) one: in every attempt the challenge is
the digest of random draw 0 while the polled verifier is random draw 2,
and at the explicit input below the polled verifier's digest differs
from the challenge sent. -/
theorem c1_pkce_verifier_mismatch :
    (∀ (sha : String → String) (rnd : ℕ → String),
        login_minimax_pkce_flow sha rnd = (sha (rnd 0), rnd 2)) ∧
    login_minimax_pkce_flow (fun s => "h" ++ s) (fun n => Nat.repr n) = ("h0", "2") ∧
    (fun s : String => "h" ++ s) "2" ≠ "h0" := by
  refine ⟨fun sha rnd => rfl, rfl, by decide⟩

/-- C2 counterexample: with a stored (even currently valid) credential
and a refresh oracle that would succeed, `get_minimax_access_token`
with `force_refresh=true` performs a full device-flow login and no
refresh call at all, contradicting the claim that it attempts a refresh
with the stored refresh token. -/
theorem c2_counterexample :
    (get_minimax_access_token true (some ⟨"A", "R", 3600, some "global"⟩) 0
        (fun _ _ => some ⟨"A2", "R2", 3600⟩)
        (fun _ => some ("B", "RB", 3600))).calls = [.loginCall "cn"] := by
  rfl

/-- C2 amended: `force_refresh=true` skips the stored credential
entirely: the call performs exactly one full device-flow login (region
`"cn"`), never issues a refresh call, and its outcome is the same as if
no credential were stored at all, for any refresh oracle. -/
theorem c2_force_refresh_goes_to_login :
    ∀ (store : Option StoredToken) (now : ℚ)
      (rN rN' : String → String → Option RefreshResp)
      (lN : String → Option (String × String × ℚ)),
      (get_minimax_access_token true store now rN lN).calls = [.loginCall "cn"] ∧
      (∀ tok reg, OAuthCall.refreshCall tok reg ∉
        (get_minimax_access_token true store now rN lN).calls) ∧
      (get_minimax_access_token true store now rN lN).outcome =
        (get_minimax_access_token true none now rN' lN).outcome := by
  intro store now rN rN' lN
  have hmain : ∀ st : Option StoredToken,
      get_minimax_access_token true st now rN lN = login_and_store [] st lN := by
    intro st
    cases st <;> rfl
  refine ⟨?_, ?_, ?_⟩
  · rw [hmain]
    unfold login_and_store
    cases h : lN "cn" with
    | none => simp
    | some v => simp
  · intro tok reg
    rw [hmain]
    unfold login_and_store
    cases h : lN "cn" with
    | none => simp
    | some v => simp
  · rw [hmain]
    have hmain' : get_minimax_access_token true none now rN' lN = login_and_store [] none lN := rfl
    rw [hmain']
    unfold login_and_store
    cases h : lN "cn" with
    | none => simp
    | some v => simp

/-- C3: `is_expired` holds exactly when `now >= expires_at - 60`; and a
stored credential loaded with 30 seconds left to its expiry instant
(`expires = 30`, so `expires_at = now + 30`) is treated as expired by
`get_minimax_access_token(force_refresh=false)`, whose first network
call is then the refresh call with the stored refresh token. -/
theorem c3_expiry_skew :
    ∀ (t : MiniMaxOAuthToken) (now : ℚ),
      (t.is_expired now = true ↔ t.expires_at - 60 ≤ now) ∧
      ∀ (td : StoredToken) (rN : String → String → Option RefreshResp)
        (lN : String → Option (String × String × ℚ)),
        td.expires = 30 →
        (get_minimax_access_token false (some td) now rN lN).calls.head? =
          some (.refreshCall td.refresh (td.region.getD "cn")) := by
  intro t now
  constructor
  · simp [MiniMaxOAuthToken.is_expired]
  · intro td rN lN h30
    have hexp : (MiniMaxOAuthToken.ofData td.access td.refresh td.expires now).is_expired
        now = true := by
      simp only [MiniMaxOAuthToken.ofData, MiniMaxOAuthToken.is_expired, h30,
        decide_eq_true_eq]
      linarith
    cases hr : rN td.refresh (td.region.getD "cn") with
    | none =>
        simp only [get_minimax_access_token, hexp, Bool.true_eq_false,
          not_true_eq_false, if_false, hr, login_and_store]
        cases hl : lN "cn" <;> simp [hl]
    | some r =>
        simp [get_minimax_access_token, hexp, hr]

/-- C3 witness at a concrete token and store. -/
theorem c3_expiry_skew_witness :
    (((⟨"a", "r", 30, 130⟩ : MiniMaxOAuthToken).is_expired 100 = true ↔
        (130 : ℚ) - 60 ≤ 100) ∧
      ∀ (td : StoredToken) (rN : String → String → Option RefreshResp)
        (lN : String → Option (String × String × ℚ)),
        td.expires = 30 →
        (get_minimax_access_token false (some td) 100 rN lN).calls.head? =
          some (.refreshCall td.refresh (td.region.getD "cn"))) ∧
    (get_minimax_access_token false (some ⟨"A", "R", 30, none⟩) 100
        (fun _ _ => none) (fun _ => none)).calls.head? =
      some (.refreshCall "R" "cn") := by
  have h := c3_expiry_skew ⟨"a", "r", 30, 130⟩ 100
  exact ⟨h, h.2 ⟨"A", "R", 30, none⟩ (fun _ _ => none) (fun _ => none) rfl⟩

/-- C5 counterexample: a single `get_minimax_access_token` call, given an
expired stored credential and a failing refresh, performs BOTH a refresh
attempt and a device-flow login attempt, contradicting the claim's
"at most one login attempt or at most one refresh attempt (not both)". -/
theorem c5_counterexample :
    (get_minimax_access_token false (some ⟨"A", "R", 0, none⟩) 100
        (fun _ _ => none) (fun _ => some ("B", "RB", 3600))).calls =
      [.refreshCall "R" "cn", .loginCall "cn"] := by
  norm_num [get_minimax_access_token, MiniMaxOAuthToken.ofData,
    MiniMaxOAuthToken.is_expired, login_and_store]

/-- C5 amended: each call issues at most one refresh call and at most one
login call — its trace is one of `[]`, `[refresh]`, `[refresh, login]`,
`[login]` (both occur exactly when a stored expired token's refresh
fails and the device-flow login runs as fallback); there is no other
internal retry. -/
theorem c5_at_most_one_of_each :
    ∀ (fr : Bool) (store : Option StoredToken) (now : ℚ)
      (rN : String → String → Option RefreshResp)
      (lN : String → Option (String × String × ℚ)),
      (get_minimax_access_token fr store now rN lN).calls = [] ∨
      (∃ tok reg, (get_minimax_access_token fr store now rN lN).calls =
        [.refreshCall tok reg]) ∨
      (∃ tok reg, (get_minimax_access_token fr store now rN lN).calls =
        [.refreshCall tok reg, .loginCall "cn"]) ∨
      (get_minimax_access_token fr store now rN lN).calls = [.loginCall "cn"] := by
  intro fr store now rN lN
  have hlogin : ∀ (pre : List OAuthCall) (st : Option StoredToken),
      (login_and_store pre st lN).calls = pre ++ [.loginCall "cn"] := by
    intro pre st
    unfold login_and_store
    cases lN "cn" with
    | none => rfl
    | some v => rfl
  cases store with
  | none =>
      right; right; right
      cases fr <;> simpa [get_minimax_access_token] using hlogin [] none
  | some td =>
      cases fr with
      | true =>
          right; right; right
          simpa [get_minimax_access_token] using hlogin [] (some td)
      | false =>
          by_cases hexp : (MiniMaxOAuthToken.ofData td.access td.refresh td.expires
              now).is_expired now = true
          · cases hr : rN td.refresh (td.region.getD "cn") with
            | none =>
                right; right; left
                refine ⟨td.refresh, td.region.getD "cn", ?_⟩
                simpa [get_minimax_access_token, hexp, hr] using
                  hlogin [.refreshCall td.refresh (td.region.getD "cn")] (some td)
            | some r =>
                right; left
                exact ⟨td.refresh, td.region.getD "cn",
                  by simp [get_minimax_access_token, hexp, hr]⟩
          · left
            rw [Bool.not_eq_true] at hexp
            simp [get_minimax_access_token, hexp]

/-- C9: with a stored token that is valid at the first call
(`is_expired` false), `get_minimax_access_token(force_refresh=false)`
returns the stored access string with zero network calls and leaves the
store untouched, and an immediately following second call (at any later
instant) returns the very same access string, again with zero network
calls. -/
theorem c9_valid_token_idempotent :
    ∀ (td : StoredToken) (now₁ now₂ : ℚ)
      (rN₁ rN₂ : String → String → Option RefreshResp)
      (lN₁ lN₂ : String → Option (String × String × ℚ)),
      (MiniMaxOAuthToken.ofData td.access td.refresh td.expires now₁).is_expired
        now₁ = false →
      get_minimax_access_token false (some td) now₁ rN₁ lN₁ =
        ⟨[], some td, .ok td.access⟩ ∧
      get_minimax_access_token false
          (get_minimax_access_token false (some td) now₁ rN₁ lN₁).store now₂ rN₂ lN₂ =
        ⟨[], some td, .ok td.access⟩ := by
  intro td now₁ now₂ rN₁ rN₂ lN₁ lN₂ hvalid
  have hdur : ¬ td.expires - 60 ≤ 0 := by
    simp only [MiniMaxOAuthToken.ofData, MiniMaxOAuthToken.is_expired,
      decide_eq_false_iff_not] at hvalid
    intro h
    exact hvalid (by linarith)
  have hvalid₂ : (MiniMaxOAuthToken.ofData td.access td.refresh td.expires
      now₂).is_expired now₂ = false := by
    simp only [MiniMaxOAuthToken.ofData, MiniMaxOAuthToken.is_expired,
      decide_eq_false_iff_not]
    intro h
    exact hdur (by linarith)
  have h₁ : get_minimax_access_token false (some td) now₁ rN₁ lN₁ =
      ⟨[], some td, .ok td.access⟩ := by
    simp only [get_minimax_access_token, hvalid, Bool.false_eq_true,
      not_false_eq_true, if_true]
    simp [MiniMaxOAuthToken.ofData]
  refine ⟨h₁, ?_⟩
  rw [h₁]
  simp only [get_minimax_access_token, hvalid₂, Bool.false_eq_true,
    not_false_eq_true, if_true]
  simp [MiniMaxOAuthToken.ofData]

/-- C9 witness at a concrete store and two instants far apart. -/
theorem c9_valid_token_idempotent_witness :
    get_minimax_access_token false (some ⟨"A", "R", 3600, some "cn"⟩) 0
        (fun _ _ => none) (fun _ => none) =
      ⟨[], some ⟨"A", "R", 3600, some "cn"⟩, .ok "A"⟩ ∧
    get_minimax_access_token false
        (get_minimax_access_token false (some ⟨"A", "R", 3600, some "cn"⟩) 0
          (fun _ _ => none) (fun _ => none)).store 1000000
        (fun _ _ => none) (fun _ => none) =
      ⟨[], some ⟨"A", "R", 3600, some "cn"⟩, .ok "A"⟩ := by
  exact c9_valid_token_idempotent ⟨"A", "R", 3600, some "cn"⟩ 0 1000000
    (fun _ _ => none) (fun _ _ => none) (fun _ => none) (fun _ => none)
    (by norm_num [MiniMaxOAuthToken.ofData, MiniMaxOAuthToken.is_expired])

/-- C10: when the stored credential is expired and its refresh fails, the
fallback device-flow login is invoked with the default region `"cn"` —
the region recorded in the stored credential (whatever it is) is
ignored — and the persisted record is overwritten with region `"cn"`. -/
theorem c10_relogin_default_region :
    ∀ (td : StoredToken) (now : ℚ)
      (rN : String → String → Option RefreshResp)
      (lN : String → Option (String × String × ℚ)) (a r : String) (e : ℚ),
      (MiniMaxOAuthToken.ofData td.access td.refresh td.expires now).is_expired
        now = true →
      rN td.refresh (td.region.getD "cn") = none →
      lN "cn" = some (a, r, e) →
      get_minimax_access_token false (some td) now rN lN =
        ⟨[.refreshCall td.refresh (td.region.getD "cn"), .loginCall "cn"],
         some ⟨a, r, e, some "cn"⟩, .ok a⟩ := by
  intro td now rN lN a r e hexp hrefresh hlogin
  simp only [get_minimax_access_token, hexp, Bool.true_eq_false, not_true_eq_false,
    if_false, hrefresh, login_and_store, hlogin]
  rfl

/-- C10 witness: stored region `"global"`, refresh fails, login succeeds;
the new record's region is `"cn"`. -/
theorem c10_relogin_default_region_witness :
    get_minimax_access_token false (some ⟨"A", "R", 0, some "global"⟩) 100
        (fun _ _ => none) (fun _ => some ("B", "RB", 3600)) =
      ⟨[.refreshCall "R" "global", .loginCall "cn"],
       some ⟨"B", "RB", 3600, some "cn"⟩, .ok "B"⟩ := by
  exact c10_relogin_default_region ⟨"A", "R", 0, some "global"⟩ 100
    (fun _ _ => none) (fun _ => some ("B", "RB", 3600)) "B" "RB" 3600
    (by norm_num [MiniMaxOAuthToken.ofData, MiniMaxOAuthToken.is_expired]) rfl rfl

/-- Helper: the empty pending-schedule condition is vacuous. -/
theorem pendingBefore_zero (resps : List PollResp) : pendingBefore resps 0 := by
  intro j hj
  exact absurd hj (Nat.not_lt_zero j)

/-- Helper: extend a pending schedule through a pending head response. -/
theorem pendingBefore_cons {r : PollResp} {rest : List PollResp} {k : ℕ}
    (h1 : isPending r = true) (h2 : pendingBefore rest k) :
    pendingBefore (r :: rest) (k + 1) := by
  intro j hj
  cases j with
  | zero => simpa using h1
  | succ j => simpa using h2 j (by omega)

/-- Helper: soundness of `poll_loop` outcomes — whenever the loop
terminates, it does so by the success response, the error response, or
the deadline, as characterised by the response schedule and the check
instants. -/
theorem poll_loop_sound (region : String) (e : ℚ) :
    ∀ (resps : List PollResp) (now i : ℚ) (o : Except LoginErr LoginOk),
      (poll_loop region e now i resps).2 = some o →
      (∃ k, k < resps.length ∧ pendingBefore resps k ∧
          (resps.getD k dummyResp).status = "success" ∧
          o = .ok ⟨(resps.getD k dummyResp).access_token,
                   (resps.getD k dummyResp).refresh_token,
                   (resps.getD k dummyResp).expired_in, region⟩) ∨
      (∃ k, k < resps.length ∧ pendingBefore resps k ∧
          (resps.getD k dummyResp).status = "error" ∧
          o = .error (.provider (resps.getD k dummyResp).message)) ∨
      (o = .error .timeout ∧ ∃ k, k ≤ resps.length ∧ pendingBefore resps k ∧
          e ≤ timeAt now i k) := by
  intro resps
  induction resps with
  | nil =>
      intro now i o h
      by_cases hc : e ≤ now
      · right; right
        simp only [poll_loop, hc, if_true, Option.some.injEq] at h
        exact ⟨h.symm, 0, Nat.le_refl 0, pendingBefore_zero [], by simpa [timeAt] using hc⟩
      · simp [poll_loop, hc] at h
  | cons r rest ih =>
      intro now i o h
      by_cases hc : e ≤ now
      · right; right
        simp only [poll_loop, hc, if_true, Option.some.injEq] at h
        exact ⟨h.symm, 0, Nat.zero_le _, pendingBefore_zero _, by simpa [timeAt] using hc⟩
      · by_cases hs : r.status = "success"
        · left
          simp only [poll_loop, hc, hs, if_false, if_true,
            Option.some.injEq] at h
          exact ⟨0, Nat.succ_pos _, pendingBefore_zero _, by simpa using hs, by simpa using h.symm⟩
        · by_cases he : r.status = "error"
          · right; left
            simp only [poll_loop, hc, hs, he, if_false, if_true,
              Option.some.injEq] at h
            exact ⟨0, Nat.succ_pos _, pendingBefore_zero _, by simpa using he,
              by simpa using h.symm⟩
          · rcases hP : poll_loop region e (now + i) (nextInterval i) rest with ⟨s, o'⟩
            have h' : (poll_loop region e (now + i) (nextInterval i) rest).2 = some o := by
              simp only [poll_loop, hc, hs, he, if_false, hP] at h
              rw [hP]
              simpa using h
            have hpend : isPending r = true := by
              simp [isPending, hs, he]
            rcases ih (now + i) (nextInterval i) o h' with
              ⟨k, hk, hp, hst, ho⟩ | ⟨k, hk, hp, hst, ho⟩ | ⟨ho, k, hk, hp, ht⟩
            · left
              exact ⟨k + 1, Nat.succ_lt_succ hk, pendingBefore_cons hpend hp,
                by simpa using hst, by simpa using ho⟩
            · right; left
              exact ⟨k + 1, Nat.succ_lt_succ hk, pendingBefore_cons hpend hp,
                by simpa using hst, by simpa using ho⟩
            · right; right
              exact ⟨ho, k + 1, Nat.succ_le_succ hk, pendingBefore_cons hpend hp,
                by simpa [timeAt] using ht⟩

/-- C6: the device-flow poll loop of `login_minimax` terminates in
exactly three ways.  If it produced an outcome, then either (a) some
scheduled response, preceded only by pending ones, had status
`"success"` and the loop returned its access/refresh/expiry together
with the region; or (b) such a response had status `"error"` and the
loop raised a provider failure carrying that response's `message`; or
(c) the outcome is the timeout failure, raised at a deadline check whose
instant had reached `start + expires_in` after only pending
responses. -/
theorem c6_poll_loop_termination :
    ∀ (region : String) (start expires_in i : ℚ) (resps : List PollResp)
      (o : Except LoginErr LoginOk),
      (login_minimax_poll region start expires_in i resps).2 = some o →
      (∃ k, k < resps.length ∧ pendingBefore resps k ∧
          (resps.getD k dummyResp).status = "success" ∧
          o = .ok ⟨(resps.getD k dummyResp).access_token,
                   (resps.getD k dummyResp).refresh_token,
                   (resps.getD k dummyResp).expired_in, region⟩) ∨
      (∃ k, k < resps.length ∧ pendingBefore resps k ∧
          (resps.getD k dummyResp).status = "error" ∧
          o = .error (.provider (resps.getD k dummyResp).message)) ∨
      (o = .error .timeout ∧ ∃ k, k ≤ resps.length ∧ pendingBefore resps k ∧
          start + expires_in ≤ timeAt start i k) :=
  fun region start expires_in i resps o h =>
    poll_loop_sound region (start + expires_in) resps start i o h

/-- C6 witness: one pending response followed by a success response ends
the loop with the provider's access/refresh/expiry and the region. -/
theorem c6_poll_loop_termination_witness :
    (∃ k, k < ([⟨"pending", "", "", 0, none⟩,
          ⟨"success", "A", "R", 3600, none⟩] : List PollResp).length ∧
        pendingBefore [⟨"pending", "", "", 0, none⟩,
          ⟨"success", "A", "R", 3600, none⟩] k ∧
        (([⟨"pending", "", "", 0, none⟩,
            ⟨"success", "A", "R", 3600, none⟩] : List PollResp).getD k
              dummyResp).status = "success" ∧
        (Except.ok ⟨"A", "R", 3600, "cn"⟩ : Except LoginErr LoginOk) =
          .ok ⟨(([⟨"pending", "", "", 0, none⟩,
              ⟨"success", "A", "R", 3600, none⟩] : List PollResp).getD k
                dummyResp).access_token,
            (([⟨"pending", "", "", 0, none⟩,
              ⟨"success", "A", "R", 3600, none⟩] : List PollResp).getD k
                dummyResp).refresh_token,
            (([⟨"pending", "", "", 0, none⟩,
              ⟨"success", "A", "R", 3600, none⟩] : List PollResp).getD k
                dummyResp).expired_in, "cn"⟩) ∨
    (∃ k, k < ([⟨"pending", "", "", 0, none⟩,
          ⟨"success", "A", "R", 3600, none⟩] : List PollResp).length ∧
        pendingBefore [⟨"pending", "", "", 0, none⟩,
          ⟨"success", "A", "R", 3600, none⟩] k ∧
        (([⟨"pending", "", "", 0, none⟩,
            ⟨"success", "A", "R", 3600, none⟩] : List PollResp).getD k
              dummyResp).status = "error" ∧
        (Except.ok ⟨"A", "R", 3600, "cn"⟩ : Except LoginErr LoginOk) =
          .error (.provider (([⟨"pending", "", "", 0, none⟩,
            ⟨"success", "A", "R", 3600, none⟩] : List PollResp).getD k
              dummyResp).message)) ∨
    ((Except.ok ⟨"A", "R", 3600, "cn"⟩ : Except LoginErr LoginOk) =
        .error .timeout ∧
      ∃ k, k ≤ ([⟨"pending", "", "", 0, none⟩,
          ⟨"success", "A", "R", 3600, none⟩] : List PollResp).length ∧
        pendingBefore [⟨"pending", "", "", 0, none⟩,
          ⟨"success", "A", "R", 3600, none⟩] k ∧
        (0 : ℚ) + 300 ≤ timeAt 0 2 k) :=
  c6_poll_loop_termination "cn" 0 300 2
    [⟨"pending", "", "", 0, none⟩, ⟨"success", "A", "R", 3600, none⟩]
    (.ok ⟨"A", "R", 3600, "cn"⟩)
    (by norm_num [login_minimax_poll, poll_loop, nextInterval]; rfl)

/-- C4 counterexample: with initial poll interval 20 (a value the
initiate response may return) and two pending responses, the sleep
sequence of the loop is `[20, 10]`, which decreases — refuting "the
sequence of intervals never decreases" for arbitrary initial
intervals. -/
theorem c4_counterexample :
    (login_minimax_poll "cn" 0 300 20
        [⟨"pending", "", "", 0, none⟩, ⟨"pending", "", "", 0, none⟩]).1 =
      [20, 10] ∧ ¬ ((20 : ℚ) ≤ 10) := by
  constructor
  · norm_num [login_minimax_poll, poll_loop, nextInterval, min_def]
    rfl
  · norm_num

/-- Helper: `nextInterval` keeps the interval in `[0, 10]` and does not
decrease it while it is there. -/
theorem nextInterval_props (i : ℚ) (h0 : 0 ≤ i) (h10 : i ≤ 10) :
    i ≤ nextInterval i ∧ 0 ≤ nextInterval i ∧ nextInterval i ≤ 10 :=
  ⟨le_min (by linarith) h10, le_min (by linarith) (by norm_num),
    min_le_right _ _⟩

/-- Helper: the sleep trace of `poll_loop` is empty or starts with the
current interval. -/
theorem poll_loop_sleeps_shape (region : String) (e now i : ℚ)
    (resps : List PollResp) :
    (poll_loop region e now i resps).1 = [] ∨
      ∃ s, (poll_loop region e now i resps).1 = i :: s := by
  cases resps with
  | nil => by_cases hc : e ≤ now <;> simp [poll_loop, hc]
  | cons r rest =>
      by_cases hc : e ≤ now
      · simp [poll_loop, hc]
      · by_cases hs : r.status = "success"
        · right; exact ⟨[], by simp [poll_loop, hc, hs]⟩
        · by_cases he : r.status = "error"
          · right; exact ⟨[], by simp [poll_loop, hc, hs, he]⟩
          · right
            rcases hP : poll_loop region e (now + i) (nextInterval i) rest with ⟨s, o⟩
            exact ⟨s, by simp [poll_loop, hc, hs, he, hP]⟩

/-- Helper: the successive sleep durations of `poll_loop` are linked by
the backoff update, and, provided the current interval lies in
`[0, 10]`, they never decrease. -/
theorem poll_loop_backoff_chain (region : String) (e : ℚ) :
    ∀ (resps : List PollResp) (now i : ℚ),
      List.Chain' (fun a b => b = nextInterval a) (poll_loop region e now i resps).1 ∧
      (0 ≤ i → i ≤ 10 →
        List.Chain' (fun a b : ℚ => a ≤ b) (poll_loop region e now i resps).1) := by
  intro resps
  induction resps with
  | nil =>
      intro now i
      by_cases hc : e ≤ now <;> simp [poll_loop, hc]
  | cons r rest ih =>
      intro now i
      by_cases hc : e ≤ now
      · simp [poll_loop, hc]
      · by_cases hs : r.status = "success"
        · simp [poll_loop, hc, hs]
        · by_cases he : r.status = "error"
          · simp [poll_loop, hc, hs, he]
          · rcases hP : poll_loop region e (now + i) (nextInterval i) rest with ⟨s, o⟩
            have hgoal : (poll_loop region e now i (r :: rest)).1 = i :: s := by
              simp [poll_loop, hc, hs, he, hP]
            have ihs := ih (now + i) (nextInterval i)
            rw [hP] at ihs
            have hhead : ∀ y ∈ s.head?, y = nextInterval i := by
              have hsh := poll_loop_sleeps_shape region e (now + i) (nextInterval i) rest
              rw [hP] at hsh
              rcases hsh with h0 | ⟨s', h1⟩
              · have h0' : s = [] := h0
                intro y hy
                rw [h0'] at hy
                simp at hy
              · have h1' : s = nextInterval i :: s' := h1
                intro y hy
                rw [h1'] at hy
                simp at hy
                exact hy.symm
            rw [hgoal]
            constructor
            · rw [List.chain'_cons']
              exact ⟨fun y hy => hhead y hy, ihs.1⟩
            · intro h0 h10
              rw [List.chain'_cons']
              refine ⟨fun y hy => ?_, ihs.2 (nextInterval_props i h0 h10).2.1
                (nextInterval_props i h0 h10).2.2⟩
              rw [hhead y hy]
              exact (nextInterval_props i h0 h10).1

/-- C4 amended: successive sleep intervals of the `login_minimax` poll
loop always satisfy `next = min(prev * 1.5, 10)`; the sequence never
decreases PROVIDED the initial interval returned by initiate lies in
`[0, 10]` (as the default 2 does) — for larger initial intervals the
first backoff step decreases to 10, as the counterexample shows. -/
theorem c4_backoff_monotone :
    ∀ (region : String) (start expires_in i : ℚ) (resps : List PollResp),
      List.Chain' (fun a b => b = nextInterval a)
        (login_minimax_poll region start expires_in i resps).1 ∧
      (0 ≤ i → i ≤ 10 →
        List.Chain' (fun a b : ℚ => a ≤ b)
          (login_minimax_poll region start expires_in i resps).1) :=
  fun region start expires_in i resps =>
    poll_loop_backoff_chain region (start + expires_in) resps start i

/-- C4 witness: the default initial interval 2 with three pending
responses gives the nondecreasing, backoff-linked sleep sequence. -/
theorem c4_backoff_monotone_witness :
    List.Chain' (fun a b => b = nextInterval a)
      (login_minimax_poll "cn" 0 300 2 [⟨"pending", "", "", 0, none⟩,
        ⟨"pending", "", "", 0, none⟩, ⟨"pending", "", "", 0, none⟩]).1 ∧
    List.Chain' (fun a b : ℚ => a ≤ b)
      (login_minimax_poll "cn" 0 300 2 [⟨"pending", "", "", 0, none⟩,
        ⟨"pending", "", "", 0, none⟩, ⟨"pending", "", "", 0, none⟩]).1 := by
  have h := c4_backoff_monotone "cn" 0 300 2 [⟨"pending", "", "", 0, none⟩,
    ⟨"pending", "", "", 0, none⟩, ⟨"pending", "", "", 0, none⟩]
  exact ⟨h.1, h.2 (by norm_num) (by norm_num)⟩

/-- C7 counterexample: an event with unrecognized message-type tag
`"sticker"` whose decoded `text` field is `"@_all hi"` yields content
`"hi"` — the decoded text field with the broadcast mention stripped —
not the decoded text field itself, refuting "content equals the decoded
`text` field". -/
theorem c7_counterexample :
    decode_feishu_event (fun _ _ _ _ => some "/tmp/x") "m1" "sticker" "raw"
        (some ⟨some "@_all hi", none, none, none⟩) = ("hi", []) ∧
    ("hi" : String) ≠ "@_all hi" := by
  constructor
  · decide
  · decide

/-- C7 amended: for every raw event whose message-type tag is not one of
text/image/file/media/audio and whose content payload decodes, the
produced message has an empty media list — no download is attempted, for
any download oracle — and its content is the decoded `text` field
(possibly empty, absent keys included) after broadcast-mention
normalization (`"@_all"` removed and whitespace-stripped); in particular
it equals the decoded text field whenever that field contains no
`"@_all"`. -/
theorem c7_unrecognized_type :
    ∀ (download : String → String → String → Option String → Option String)
      (message_id msg_type content_str : String) (c : FeishuContentJson),
      msg_type ∉ (["text", "image", "file", "media", "audio"] : List String) →
      decode_feishu_event download message_id msg_type content_str (some c) =
        (strip_mention (c.text.getD ""), []) := by
  intro download mid mt cs c hmt
  simp only [List.mem_cons, List.not_mem_nil, or_false, not_or] at hmt
  obtain ⟨h1, h2, h3, h4, h5⟩ := hmt
  simp [decode_feishu_event, classify_media, h2, h3, h4, h5, truthyStr]

/-- C7 witness: tag `"sticker"`, decoded text `"x"` (no mention), any
download oracle: content is `strip_mention "x"` and media is empty. -/
theorem c7_unrecognized_type_witness :
    decode_feishu_event (fun _ _ _ _ => some "/tmp/f") "m1" "sticker" "raw"
        (some ⟨some "x", none, none, none⟩) =
      (strip_mention ((some "x").getD ""), []) :=
  c7_unrecognized_type (fun _ _ _ _ => some "/tmp/f") "m1" "sticker" "raw"
    ⟨some "x", none, none, none⟩ (by decide)

/-- Helper: the media for-loop is the concatenation of the per-item
traces, in the original order of the list. -/
theorem send_media_loop_eq_bind (upImg upFile : String → Option String)
    (rid : String) :
    ∀ paths : List String,
      send_media_loop upImg upFile rid paths =
        paths.flatMap (send_media_item upImg upFile rid)
  | [] => rfl
  | p :: rest => by
      simp [send_media_loop, List.flatMap_cons,
        send_media_loop_eq_bind upImg upFile rid rest]

/-- Helper: one media item contributes exactly one message-create call
when its upload succeeds and none when it fails. -/
theorem send_media_item_creates (upImg upFile : String → Option String)
    (rid p : String) :
    (send_media_item upImg upFile rid p).filter isCreate =
      ((upload_result upImg upFile p).map (mkMediaCreate rid p)).toList := by
  by_cases him : media_msg_type p = "image"
  · cases hk : upImg p <;>
      simp [send_media_item, upload_result, mkMediaCreate, him, hk, isCreate]
  · cases hk : upFile p <;>
      simp [send_media_item, upload_result, mkMediaCreate, him, hk, isCreate]

/-- Helper: the message-create calls of the whole media pass are exactly
one per successfully uploaded item, in the original media order. -/
theorem media_creates_in_order (upImg upFile : String → Option String)
    (rid : String) :
    ∀ paths : List String,
      (paths.flatMap (send_media_item upImg upFile rid)).filter isCreate =
        paths.filterMap
          (fun p => (upload_result upImg upFile p).map (mkMediaCreate rid p))
  | [] => rfl
  | p :: rest => by
      rw [List.flatMap_cons, List.filter_append,
        send_media_item_creates upImg upFile rid p,
        media_creates_in_order upImg upFile rid rest, List.filterMap_cons]
      cases upload_result upImg upFile p <;> simp

/-- C8: for a message with non-empty media, the trace of `send` is the
(possibly empty) text part followed by the per-item traces concatenated
sequentially in the original media order — in particular the media part
is the same regardless of the text part and of any text-send failure
(the send result never feeds back into control flow) — and the
message-create calls of the media pass are exactly one per item whose
upload succeeded, in order; items with failed uploads are skipped while
the rest are still attempted. -/
theorem c8_media_sequential :
    ∀ (upImg upFile : String → Option String) (msg : OutboundMessage),
      msg.media ≠ [] →
      (FeishuChannel.send true upImg upFile msg =
        (if msg.content ≠ "" then
            [.msgCreate msg.chat_id "text" (.textContent msg.content)]
          else []) ++ msg.media.flatMap (send_media_item upImg upFile msg.chat_id)) ∧
      ((msg.media.flatMap (send_media_item upImg upFile msg.chat_id)).filter isCreate =
        msg.media.filterMap
          (fun p => (upload_result upImg upFile p).map
            (mkMediaCreate msg.chat_id p))) := by
  intro upImg upFile msg hm
  refine ⟨?_, media_creates_in_order upImg upFile msg.chat_id msg.media⟩
  simp [FeishuChannel.send, hm, send_media_loop_eq_bind]

/-- C8 witness: two media items (`a.jpg` uploads, `b.bin` fails) after a
text part. -/
theorem c8_media_sequential_witness :
    (FeishuChannel.send true (fun p => if p = "a.jpg" then some "k1" else none)
        (fun _ => none) ⟨"c1", "hello", ["a.jpg", "b.bin"]⟩ =
      (if ("hello" : String) ≠ "" then
          [.msgCreate "c1" "text" (.textContent "hello")]
        else []) ++
        (["a.jpg", "b.bin"] : List String).flatMap
          (send_media_item (fun p => if p = "a.jpg" then some "k1" else none)
            (fun _ => none) "c1")) ∧
    ((((["a.jpg", "b.bin"] : List String).flatMap
        (send_media_item (fun p => if p = "a.jpg" then some "k1" else none)
          (fun _ => none) "c1"))).filter isCreate =
      (["a.jpg", "b.bin"] : List String).filterMap
        (fun p => (upload_result (fun q => if q = "a.jpg" then some "k1" else none)
          (fun _ => none) p).map (mkMediaCreate "c1" p))) :=
  c8_media_sequential (fun p => if p = "a.jpg" then some "k1" else none)
    (fun _ => none) ⟨"c1", "hello", ["a.jpg", "b.bin"]⟩ (by decide)
